import Mathlib

/-!
Verification of the proposal-lifecycle and commission-settlement core of the
B2B marketplace server.

The definitions below are a shallow embedding of the TypeScript source:

* `src/shared/schema.ts` — the entity record types (pg tables); `decimal`
  money columns are modelled as exact rationals (`Rat`), `timestamp` columns
  as `Nat` ticks, `serial` ids as `Nat`.
* `src/server/storage.ts` — `MemStorage`: each `Map<number, T>` is modelled
  as a `List T` in insertion order (JS `Map` iterates in insertion order;
  `Array.from(map.values())` yields exactly that list); `map.get(id)` is
  `List.find?` on the `id` field and `map.set(id, v)` replaces the entries
  whose `id` field is the key, which agrees with the `Map` because ids are
  allocated by a monotone counter.
* the route handlers registered in `registerRoutes` (the second document in
  `src/shared/schema.ts`): `POST /api/projects/:id/proposals`,
  `PATCH /api/proposals/:id/status`, `POST /api/create-payment-intent`,
  `POST /api/payments/confirm`.  Request bodies arrive already
  zod-validated (well-typed inputs), the session user id is an argument, the
  Stripe gateway is an `Option` argument (`none` = the remote call throws and
  the handler's `catch` answers 500), and the nodemailer send functions of
  `src/server/email.ts` — which `catch` their own errors and only return
  `{success: false}` — are modelled as appended `EmailEvent`s carrying a
  `delivered` flag that the handlers ignore, exactly as the source ignores
  the returned `{success}` object.
-/

/-- `users.role` enum of `src/shared/schema.ts`. -/
inductive Role where
  | buyer
  | seller
deriving DecidableEq, Repr

/-- `projects.status` enum of `src/shared/schema.ts`
(`open` is a Lean keyword, hence the guillemets). -/
inductive ProjectStatus where
  | «open»
  | pending
  | in_progress
  | completed
  | cancelled
deriving DecidableEq, Repr

/-- `proposals.status` enum of `src/shared/schema.ts`. -/
inductive ProposalStatus where
  | pending
  | accepted
  | rejected
  | completed
  | cancelled
deriving DecidableEq, Repr

/-- `payments.status` enum of `src/shared/schema.ts`. -/
inductive PaymentStatus where
  | pending
  | completed
  | refunded
  | failed
deriving DecidableEq, Repr

/-- A row of the `users` table. -/
structure User where
  id : Nat
  name : String
  email : String
  password : String
  role : Role
  createdAt : Nat
deriving DecidableEq, Repr

/-- A row of the `projects` table. -/
structure Project where
  id : Nat
  title : String
  description : String
  budget : Rat
  deadline : Nat
  status : ProjectStatus
  buyerId : Nat
  createdAt : Nat
deriving DecidableEq, Repr

/-- A row of the `proposals` table. -/
structure Proposal where
  id : Nat
  serviceDetails : String
  price : Rat
  deliveryTime : Int
  status : ProposalStatus
  projectId : Nat
  sellerId : Nat
  createdAt : Nat
deriving DecidableEq, Repr

/-- A row of the `payments` table (`stripe_payment_intent_id` is nullable). -/
structure Payment where
  id : Nat
  amount : Rat
  commission : Rat
  status : PaymentStatus
  projectId : Nat
  buyerId : Nat
  sellerId : Nat
  stripePaymentIntentId : Option String
  createdAt : Nat
deriving DecidableEq, Repr

/-- `InsertProposal` (`insertProposalSchema` omits id, status, createdAt). -/
structure InsertProposal where
  serviceDetails : String
  price : Rat
  deliveryTime : Int
  projectId : Nat
  sellerId : Nat
deriving DecidableEq, Repr

/-- `InsertPayment` (`insertPaymentSchema` omits id, status, createdAt). -/
structure InsertPayment where
  amount : Rat
  commission : Rat
  projectId : Nat
  buyerId : Nat
  sellerId : Nat
  stripePaymentIntentId : Option String
deriving DecidableEq, Repr

/-- The `MemStorage` state of `src/server/storage.ts`: one list per
`Map<number, _>` in insertion order, plus the id counters.  The `messages`
map and its counter are omitted: no operation embedded here touches them. -/
structure Store where
  users : List User
  projects : List Project
  proposals : List Proposal
  payments : List Payment
  userIdCounter : Nat
  projectIdCounter : Nat
  proposalIdCounter : Nat
  paymentIdCounter : Nat
deriving DecidableEq, Repr

/-- One step of the stable insertion sort modelling
`.sort((a, b) => b.createdAt.getTime() - a.createdAt.getTime())`:
`x` (earlier in the original array) goes in front of the first element whose
key is at most `x`'s key, so equal keys keep their original order. -/
def insertByDesc (key : α → Nat) (x : α) : List α → List α
  | [] => [x]
  | y :: ys => if key y ≤ key x then x :: y :: ys else y :: insertByDesc key x ys

/-- Stable sort by `key`, descending — the JS comparator
`(a, b) => b.createdAt.getTime() - a.createdAt.getTime()`. -/
def sortByDesc (key : α → Nat) : List α → List α
  | [] => []
  | x :: xs => insertByDesc key x (sortByDesc key xs)

namespace MemStorage

/-- `MemStorage.getUser`. -/
def getUser (s : Store) (id : Nat) : Option User :=
  s.users.find? (fun u => u.id = id)

/-- `MemStorage.getProject`. -/
def getProject (s : Store) (id : Nat) : Option Project :=
  s.projects.find? (fun p => p.id = id)

/-- `MemStorage.updateProjectStatus`. -/
def updateProjectStatus (s : Store) (id : Nat) (status : ProjectStatus) :
    Option Project × Store :=
  match s.projects.find? (fun p => p.id = id) with
  | none => (none, s)
  | some project =>
      let updatedProject := { project with status := status }
      (some updatedProject,
       { s with projects :=
           s.projects.map (fun p => if p.id = id then updatedProject else p) })

/-- `MemStorage.getProposal`. -/
def getProposal (s : Store) (id : Nat) : Option Proposal :=
  s.proposals.find? (fun p => p.id = id)

/-- `MemStorage.getProposalsByProject`: filter on `projectId`, then sort by
`createdAt` descending. -/
def getProposalsByProject (s : Store) (projectId : Nat) : List Proposal :=
  sortByDesc Proposal.createdAt
    (s.proposals.filter (fun p => p.projectId = projectId))

/-- `MemStorage.createProposal`: fresh id from the counter, status forced to
`pending`, appended in insertion order. -/
def createProposal (s : Store) (data : InsertProposal) (now : Nat) :
    Proposal × Store :=
  let id := s.proposalIdCounter
  let proposal : Proposal :=
    { id := id
      serviceDetails := data.serviceDetails
      price := data.price
      deliveryTime := data.deliveryTime
      status := ProposalStatus.pending
      projectId := data.projectId
      sellerId := data.sellerId
      createdAt := now }
  (proposal,
   { s with proposals := s.proposals ++ [proposal]
            proposalIdCounter := id + 1 })

/-- `MemStorage.updateProposalStatus`. -/
def updateProposalStatus (s : Store) (id : Nat) (status : ProposalStatus) :
    Option Proposal × Store :=
  match s.proposals.find? (fun p => p.id = id) with
  | none => (none, s)
  | some proposal =>
      let updatedProposal := { proposal with status := status }
      (some updatedProposal,
       { s with proposals :=
           s.proposals.map (fun p => if p.id = id then updatedProposal else p) })

/-- `MemStorage.getPaymentsByBuyer`: filter on `buyerId`, then sort by
`createdAt` descending. -/
def getPaymentsByBuyer (s : Store) (buyerId : Nat) : List Payment :=
  sortByDesc Payment.createdAt
    (s.payments.filter (fun p => p.buyerId = buyerId))

/-- `MemStorage.createPayment`: fresh id, status forced to `pending`;
`insertPayment.stripePaymentIntentId || null` maps the JS-falsy values
(`undefined` and `""`) to `null`. -/
def createPayment (s : Store) (data : InsertPayment) (now : Nat) :
    Payment × Store :=
  let id := s.paymentIdCounter
  let payment : Payment :=
    { id := id
      amount := data.amount
      commission := data.commission
      status := PaymentStatus.pending
      projectId := data.projectId
      buyerId := data.buyerId
      sellerId := data.sellerId
      stripePaymentIntentId :=
        match data.stripePaymentIntentId with
        | some v => if v = "" then none else some v
        | none => none
      createdAt := now }
  (payment,
   { s with payments := s.payments ++ [payment]
            paymentIdCounter := id + 1 })

/-- The value `stripePaymentIntentId || payment.stripePaymentIntentId` of
`MemStorage.updatePaymentStatus`: an absent or JS-falsy (empty) argument
keeps the stored reference. -/
def stripeOrKeep (arg : Option String) (old : Option String) : Option String :=
  match arg with
  | some v => if v = "" then old else some v
  | none => old

/-- `MemStorage.updatePaymentStatus`. -/
def updatePaymentStatus (s : Store) (id : Nat) (status : PaymentStatus)
    (stripePaymentIntentId : Option String) : Option Payment × Store :=
  match s.payments.find? (fun p => p.id = id) with
  | none => (none, s)
  | some payment =>
      let updatedPayment :=
        { payment with
            status := status
            stripePaymentIntentId :=
              stripeOrKeep stripePaymentIntentId payment.stripePaymentIntentId }
      (some updatedPayment,
       { s with payments :=
           s.payments.map (fun p => if p.id = id then updatedPayment else p) })

end MemStorage

/-- An HTTP answer of one of the four embedded route handlers: the 2xx
payloads and the `res.status(4xx/5xx).json({message})` errors. -/
inductive Resp where
  | createdProposal (p : Proposal)
  | okProposal (p : Proposal)
  | okClientSecret (clientSecret : String)
  | okPayment (p : Payment)
  | badRequest (message : String)
  | unauthorized (message : String)
  | forbidden (message : String)
  | notFound (message : String)
  | serverError (message : String)
deriving DecidableEq, Repr

/-- A call of one of the `src/server/email.ts` senders, with the arguments the
route passed and whether the SMTP transport delivered it.  The senders catch
their own errors and return `{success: false}`, so `delivered` never
influences the caller. -/
inductive EmailEvent where
  | proposalReceived («to» : String) (projectTitle : String) (sellerName : String)
      (delivered : Bool)
  | paymentProcessed («to» : String) (projectTitle : String) (amount : Rat)
      (delivered : Bool)
deriving DecidableEq, Repr

/-- What a route handler produces: the HTTP response, the storage state after
the request, and the email sends it performed. -/
structure HandlerResult where
  resp : Resp
  store : Store
  emails : List EmailEvent
deriving DecidableEq, Repr

/-- The request body of `POST /api/projects/:id/proposals` after zod
validation (`insertProposalSchema` without the ids the route injects). -/
structure ProposalBody where
  serviceDetails : String
  price : Rat
  deliveryTime : Int
deriving DecidableEq, Repr

open MemStorage in
/-- The `POST /api/projects/:id/proposals` handler (`submitProposal` of the
spec).  `sessionUserId` is the authenticated seller's session id, `now` the
request's `new Date()` tick, `emailOk` the SMTP transport's outcome for the
one notification this route may send. -/
def submitProposal (s : Store) (projectId : Nat) (sessionUserId : Nat)
    (body : ProposalBody) (now : Nat) (emailOk : Bool) : HandlerResult :=
  match getProject s projectId with
  | none => ⟨Resp.notFound "Project not found", s, []⟩
  | some project =>
    if project.status ≠ ProjectStatus.«open» then
      ⟨Resp.badRequest "This project is not accepting proposals", s, []⟩
    else
      match getUser s sessionUserId with
      | none => ⟨Resp.unauthorized "Not authenticated", s, []⟩
      | some user =>
        let validatedData : InsertProposal :=
          { serviceDetails := body.serviceDetails
            price := body.price
            deliveryTime := body.deliveryTime
            projectId := projectId
            sellerId := user.id }
        let existingProposals := getProposalsByProject s projectId
        let alreadySubmitted := existingProposals.any (fun p => p.sellerId = user.id)
        if alreadySubmitted then
          ⟨Resp.badRequest "You already submitted a proposal for this project", s, []⟩
        else
          let r := createProposal s validatedData now
          let emails :=
            match getUser r.2 project.buyerId with
            | some buyer =>
                [EmailEvent.proposalReceived buyer.email project.title user.name emailOk]
            | none => []
          ⟨Resp.createdProposal r.1, r.2, emails⟩

open MemStorage in
/-- The `PATCH /api/proposals/:id/status` handler (the spec's
`acceptProposal` / `rejectProposal`): sets the proposal's status and, when the
new status is `accepted`, moves the project to `in_progress` and rejects every
other still-`pending` proposal of the project.  `status` arrives already
validated by the route's zod enum. -/
def patchProposalStatus (s : Store) (proposalId : Nat) (status : ProposalStatus)
    (sessionUserId : Nat) : HandlerResult :=
  match getProposal s proposalId with
  | none => ⟨Resp.notFound "Proposal not found", s, []⟩
  | some proposal =>
    match getProject s proposal.projectId with
    | none => ⟨Resp.notFound "Project not found", s, []⟩
    | some project =>
      match getUser s sessionUserId with
      | none =>
          ⟨Resp.forbidden "You don't have permission to update this proposal", s, []⟩
      | some user =>
        if user.id ≠ project.buyerId then
          ⟨Resp.forbidden "You don't have permission to update this proposal", s, []⟩
        else
          let r := updateProposalStatus s proposalId status
          -- the lookup inside `updateProposalStatus` cannot fail here: the
          -- proposal was found two steps above, so `r.1 = some _`.
          let updatedProposal := r.1.getD proposal
          if status = ProposalStatus.accepted then
            let r2 := updateProjectStatus r.2 project.id ProjectStatus.in_progress
            let otherProposals := getProposalsByProject r2.2 project.id
            let s3 := otherProposals.foldl
              (fun acc otherProposal =>
                if otherProposal.id ≠ proposalId ∧
                    otherProposal.status = ProposalStatus.pending then
                  (updateProposalStatus acc otherProposal.id
                    ProposalStatus.rejected).2
                else acc)
              r2.2
            ⟨Resp.okProposal updatedProposal, s3, []⟩
          else
            ⟨Resp.okProposal updatedProposal, r.2, []⟩

/-- What `stripe.paymentIntents.create` answered: `none` models the remote
call throwing (the handler's `catch` then answers 500). -/
structure StripeIntent where
  id : String
  clientSecret : String
deriving DecidableEq, Repr

/-- `Math.round` on an exact rational: JS rounds half towards `+∞`. -/
def jsRound (q : Rat) : Int := Rat.floor (q + 1 / 2)

open MemStorage in
/-- The `POST /api/create-payment-intent` handler (the spec's
`initiatePayment`).  `proposalId = 0` models a JS-falsy body field (`!proposalId`);
`intent` is the Stripe gateway's outcome.  The commission is computed as
`amount * 0.15` — exact rationals here, as the `decimal(10,2)` columns are
decimal-valued — and no rounding is applied before storing it. -/
def createPaymentIntent (s : Store) (sessionUserId : Nat) (proposalId : Nat)
    (intent : Option StripeIntent) (now : Nat) : HandlerResult :=
  if proposalId = 0 then
    ⟨Resp.badRequest "Proposal ID is required", s, []⟩
  else
    match getProposal s proposalId with
    | none => ⟨Resp.notFound "Proposal not found", s, []⟩
    | some proposal =>
      match getProject s proposal.projectId with
      | none => ⟨Resp.notFound "Project not found", s, []⟩
      | some project =>
        match getUser s sessionUserId with
        | none =>
            ⟨Resp.forbidden "You don't have permission to make this payment", s, []⟩
        | some user =>
          if user.id ≠ project.buyerId then
            ⟨Resp.forbidden "You don't have permission to make this payment", s, []⟩
          else
            let amount := proposal.price
            let commission := amount * (15 / 100 : Rat)
            let _amountInCents := jsRound (amount * 100)
            match intent with
            | none => ⟨Resp.serverError "Error creating payment intent", s, []⟩
            | some paymentIntent =>
              let r := createPayment s
                { amount := amount
                  commission := commission
                  projectId := project.id
                  buyerId := user.id
                  sellerId := proposal.sellerId
                  stripePaymentIntentId := some paymentIntent.id } now
              ⟨Resp.okClientSecret paymentIntent.clientSecret, r.2, []⟩

open MemStorage in
/-- The `POST /api/payments/confirm` handler (the spec's `confirmPayment`):
finds the session buyer's payment whose stored Stripe reference matches,
marks it `completed`, and emails buyer (gross) and seller (net) — with no
already-completed check before either step.  `paymentIntentId = ""` models a
JS-falsy body field. -/
def confirmPayment (s : Store) (sessionUserId : Nat) (paymentIntentId : String)
    (emailOk : Bool) : HandlerResult :=
  if paymentIntentId = "" then
    ⟨Resp.badRequest "Payment intent ID is required", s, []⟩
  else
    let payments := getPaymentsByBuyer s sessionUserId
    match payments.find? (fun p => p.stripePaymentIntentId = some paymentIntentId) with
    | none => ⟨Resp.notFound "Payment not found", s, []⟩
    | some payment =>
      let r := updatePaymentStatus s payment.id PaymentStatus.completed none
      -- the lookup inside `updatePaymentStatus` cannot fail here: `payment`
      -- came from the store just above, so `r.1 = some _`.
      let updatedPayment := r.1.getD payment
      let emails :=
        match getUser r.2 payment.buyerId, getUser r.2 payment.sellerId,
            getProject r.2 payment.projectId with
        | some buyer, some seller, some project =>
            [EmailEvent.paymentProcessed buyer.email project.title payment.amount
               emailOk,
             EmailEvent.paymentProcessed seller.email project.title
               (payment.amount - payment.commission) emailOk]
        | _, _, _ => []
      ⟨Resp.okPayment updatedPayment, r.2, emails⟩

/-- One request to one of the four core endpoints, with arbitrary caller,
arguments, clock tick and external outcomes: the transition relation of the
proposal-lifecycle/settlement state machine. -/
inductive Step : Store → Store → Prop where
  | submit (s : Store) (projectId sessionUserId : Nat) (body : ProposalBody)
      (now : Nat) (emailOk : Bool) :
      Step s (submitProposal s projectId sessionUserId body now emailOk).store
  | patchStatus (s : Store) (proposalId : Nat) (status : ProposalStatus)
      (sessionUserId : Nat) :
      Step s (patchProposalStatus s proposalId status sessionUserId).store
  | intent (s : Store) (sessionUserId proposalId : Nat)
      (gw : Option StripeIntent) (now : Nat) :
      Step s (createPaymentIntent s sessionUserId proposalId gw now).store
  | confirm (s : Store) (sessionUserId : Nat) (ref : String) (emailOk : Bool) :
      Step s (confirmPayment s sessionUserId ref emailOk).store

/-- How many proposals of project `projectId` hold status `accepted`. -/
def acceptedCount (s : Store) (projectId : Nat) : Nat :=
  (s.proposals.filter
    (fun p => p.projectId = projectId ∧ p.status = ProposalStatus.accepted)).length

/-- The spec's `round(x, 2)`: rounding to cent precision (half towards `+∞`,
as JS `Math.round` does).  This definition follows the spec's words, for
comparison against the source's commission computation. -/
def roundTo2 (q : Rat) : Rat := (jsRound (q * 100) : Rat) / 100

/-- Scenario fixture: the buyer who owns project 1. -/
def buyerAda : User :=
  { id := 1, name := "Ada", email := "ada@example.com", password := "pw"
    role := Role.buyer, createdAt := 0 }

/-- Scenario fixture: a seller. -/
def sellerBob : User :=
  { id := 2, name := "Bob", email := "bob@example.com", password := "pw"
    role := Role.seller, createdAt := 0 }

/-- Scenario fixture: a second seller. -/
def sellerCid : User :=
  { id := 3, name := "Cid", email := "cid@example.com", password := "pw"
    role := Role.seller, createdAt := 0 }

/-- Scenario fixture: project 1, owned by buyer 1, still open. -/
def projectOne : Project :=
  { id := 1, title := "Website", description := "Build a website"
    budget := 1000, deadline := 100, status := ProjectStatus.«open»
    buyerId := 1, createdAt := 0 }

/-- Scenario fixture: three users, one open project, no proposals and no
payments yet — the store the core operations start from. -/
def baseStore : Store :=
  { users := [buyerAda, sellerBob, sellerCid]
    projects := [projectOne]
    proposals := []
    payments := []
    userIdCounter := 4, projectIdCounter := 2
    proposalIdCounter := 1, paymentIdCounter := 1 }

/-- Scenario fixture: seller Bob's proposal body. -/
def bodyBob : ProposalBody :=
  { serviceDetails := "I will build it", price := 800, deliveryTime := 10 }

/-- Scenario fixture: seller Cid's proposal body. -/
def bodyCid : ProposalBody :=
  { serviceDetails := "Me too", price := 900, deliveryTime := 5 }

/-- After Bob submits on project 1 (creates proposal 1, pending). -/
def storeAfterBob : Store := (submitProposal baseStore 1 2 bodyBob 1 true).store

/-- After Cid also submits on project 1 (creates proposal 2, pending). -/
def storeAfterCid : Store := (submitProposal storeAfterBob 1 3 bodyCid 2 true).store

/-- After the buyer accepts proposal 1: proposal 1 accepted, proposal 2
rejected by the cascade, project 1 in progress. -/
def storeAfterAccept : Store := (patchProposalStatus storeAfterCid 1 ProposalStatus.accepted 1).store

/-- After the buyer then also accepts proposal 2 — the handler has no
pending-status guard, so the call succeeds on the rejected proposal. -/
def storeAfterSecondAccept : Store := (patchProposalStatus storeAfterAccept 2 ProposalStatus.accepted 1).store

/-- Bob's proposal 1 as it stands once accepted. -/
def propBobAccepted : Proposal :=
  { id := 1, serviceDetails := "I will build it", price := 800
    deliveryTime := 10, status := ProposalStatus.accepted, projectId := 1
    sellerId := 2, createdAt := 1 }

/-- Fixture for the settlement scenarios: a pending payment of $800 with a
$120 commission, tied to project 1, buyer 1, seller 2, Stripe reference
`pi_1`. -/
def payOne : Payment :=
  { id := 1, amount := 800, commission := 120, status := PaymentStatus.pending
    projectId := 1, buyerId := 1, sellerId := 2
    stripePaymentIntentId := some "pi_1", createdAt := 3 }

/-- Store holding `payOne`, still unconfirmed. -/
def payStore : Store := { baseStore with payments := [payOne], paymentIdCounter := 2 }

/-- First confirmation of `pi_1`. -/
def confirmOnce : HandlerResult := confirmPayment payStore 1 "pi_1" true

/-- Second confirmation of `pi_1`, after the first. -/
def confirmTwice : HandlerResult := confirmPayment confirmOnce.store 1 "pi_1" true

/-- Fixture: Bob's proposal 1 still pending (no acceptance happened). -/
def propBobPending : Proposal :=
  { id := 1, serviceDetails := "I will build it", price := 800
    deliveryTime := 10, status := ProposalStatus.pending, projectId := 1
    sellerId := 2, createdAt := 1 }

/-- Store where proposal 1 is merely pending. -/
def pendingPropStore : Store :=
  { baseStore with proposals := [propBobPending], proposalIdCounter := 2 }

/-- Fixture: an accepted proposal priced $33.33 — a price whose 15%
commission does not fall on a whole cent. -/
def propBobOddPrice : Proposal :=
  { id := 1, serviceDetails := "I will build it", price := 3333 / 100
    deliveryTime := 10, status := ProposalStatus.accepted, projectId := 1
    sellerId := 2, createdAt := 1 }

/-- Store holding the $33.33 accepted proposal. -/
def oddPriceStore : Store :=
  { baseStore with proposals := [propBobOddPrice], proposalIdCounter := 2 }

/-- The payment the handler records for the $33.33 proposal: the commission
field holds the unrounded product `33.33 * 0.15`. -/
def payOdd : Payment :=
  { id := 1, amount := 3333 / 100, commission := (3333 / 100 : Rat) * (15 / 100)
    status := PaymentStatus.pending, projectId := 1, buyerId := 1, sellerId := 2
    stripePaymentIntentId := some "pi_2", createdAt := 5 }

/-- Fixture: a rejected proposal of Bob on the now in-progress project 1. -/
def propBobRejected : Proposal :=
  { id := 1, serviceDetails := "I will build it", price := 800
    deliveryTime := 10, status := ProposalStatus.rejected, projectId := 1
    sellerId := 2, createdAt := 1 }

/-- Store where project 1 is `in_progress` and Bob's proposal was rejected. -/
def closedProjectStore : Store :=
  { baseStore with
      projects := [{ projectOne with status := ProjectStatus.in_progress }]
      proposals := [propBobRejected]
      proposalIdCounter := 2 }



/-- Store where Bob's proposal 1 is accepted (integer price $800). -/
def acceptedPropStore : Store :=
  { baseStore with proposals := [propBobAccepted], proposalIdCounter := 2 }

/-- The proposal created when Bob submits on `payStore` at tick 9. -/
def submittedOnPayStore : Proposal :=
  { id := 1, serviceDetails := "I will build it", price := 800
    deliveryTime := 10, status := ProposalStatus.pending, projectId := 1
    sellerId := 2, createdAt := 9 }

/-- `payOne` after confirmation. -/
def payOneCompleted : Payment := { payOne with status := PaymentStatus.completed }

/-! ### Helper lemmas about the storage model -/

theorem mem_insertByDesc {key : α → Nat} {x a : α} {l : List α} :
    a ∈ insertByDesc key x l ↔ a = x ∨ a ∈ l := by
  induction l with
  | nil => simp [insertByDesc]
  | cons y ys ih =>
      unfold insertByDesc
      by_cases h : key y ≤ key x
      · simp [h]
      · simp only [if_neg h, List.mem_cons, ih]
        tauto

theorem mem_sortByDesc {key : α → Nat} {a : α} {l : List α} :
    a ∈ sortByDesc key l ↔ a ∈ l := by
  induction l with
  | nil => simp [sortByDesc]
  | cons y ys ih => simp [sortByDesc, mem_insertByDesc, ih]

/-- Membership in `getProposalsByProject`: the sort is a permutation, so it is
exactly the store's proposals of that project. -/
theorem mem_getProposalsByProject {s : Store} {pid : Nat} {q : Proposal} :
    q ∈ MemStorage.getProposalsByProject s pid ↔
      q ∈ s.proposals ∧ q.projectId = pid := by
  unfold MemStorage.getProposalsByProject
  simp [mem_sortByDesc, List.mem_filter]

/-- `some(...)` over `getProposalsByProject` seen on the raw store list. -/
theorem any_getProposalsByProject {s : Store} {pid : Nat} {f : Proposal → Bool} :
    (MemStorage.getProposalsByProject s pid).any f = true ↔
      ∃ p ∈ s.proposals, p.projectId = pid ∧ f p = true := by
  simp only [List.any_eq_true, mem_getProposalsByProject]
  tauto

/-- `updateProposalStatus` leaves every non-proposal field of the store
unchanged. -/
theorem updateProposalStatus_store (s : Store) (i : Nat) (st : ProposalStatus) :
    (MemStorage.updateProposalStatus s i st).2 =
      { s with proposals := (MemStorage.updateProposalStatus s i st).2.proposals } := by
  unfold MemStorage.updateProposalStatus
  cases s.proposals.find? (fun p => p.id = i) <;> rfl

/-- With distinct proposal ids (true of every store the id counter builds),
`updateProposalStatus` is the pointwise status update on the stored list. -/
theorem updateProposalStatus_proposals (s : Store) (i : Nat) (st : ProposalStatus)
    (hnd : (s.proposals.map Proposal.id).Nodup) :
    (MemStorage.updateProposalStatus s i st).2.proposals =
      s.proposals.map (fun q => if q.id = i then { q with status := st } else q) := by
  unfold MemStorage.updateProposalStatus
  cases h : s.proposals.find? (fun p => p.id = i) with
  | none =>
      simp only
      refine Eq.trans ?_ (List.map_congr_left (g := id) ?_).symm
      · simp
      · intro q hq
        have := List.find?_eq_none.mp h q hq
        simp only [decide_eq_true_eq] at this
        simp [this]
  | some p =>
      have hpi : p.id = i := by
        have := List.find?_some h
        simpa using this
      have hpm : p ∈ s.proposals := List.mem_of_find?_eq_some h
      simp only
      refine List.map_congr_left ?_
      intro q hq
      by_cases hqi : q.id = i
      · have : q = p := List.inj_on_of_nodup_map hnd hq hpm (by rw [hqi, hpi])
        subst this
        simp [hqi]
      · simp [hqi]

/-- Same facts for `updateProjectStatus`. -/
theorem updateProjectStatus_store (s : Store) (i : Nat) (st : ProjectStatus) :
    (MemStorage.updateProjectStatus s i st).2 =
      { s with projects := (MemStorage.updateProjectStatus s i st).2.projects } := by
  unfold MemStorage.updateProjectStatus
  cases s.projects.find? (fun p => p.id = i) <;> rfl

theorem updateProjectStatus_projects (s : Store) (i : Nat) (st : ProjectStatus)
    (hnd : (s.projects.map Project.id).Nodup) :
    (MemStorage.updateProjectStatus s i st).2.projects =
      s.projects.map (fun q => if q.id = i then { q with status := st } else q) := by
  unfold MemStorage.updateProjectStatus
  cases h : s.projects.find? (fun p => p.id = i) with
  | none =>
      simp only
      refine Eq.trans ?_ (List.map_congr_left (g := id) ?_).symm
      · simp
      · intro q hq
        have := List.find?_eq_none.mp h q hq
        simp only [decide_eq_true_eq] at this
        simp [this]
  | some p =>
      have hpi : p.id = i := by
        have := List.find?_some h
        simpa using this
      have hpm : p ∈ s.projects := List.mem_of_find?_eq_some h
      simp only
      refine List.map_congr_left ?_
      intro q hq
      by_cases hqi : q.id = i
      · have : q = p := List.inj_on_of_nodup_map hnd hq hpm (by rw [hqi, hpi])
        subst this
        simp [hqi]
      · simp [hqi]

/-- The accept-cascade loop (`for otherProposal of otherProposals`): folding
the conditional rejections over any snapshot list `T` rewrites the stored
proposals pointwise — an element is rejected exactly when some member of `T`
carries its id, is not the accepted proposal, and was pending in the
snapshot. -/
theorem cascade_foldl (pid : Nat) (T : List Proposal) (s : Store)
    (hnd : (s.proposals.map Proposal.id).Nodup) :
    T.foldl (fun acc otherProposal =>
        if otherProposal.id ≠ pid ∧ otherProposal.status = ProposalStatus.pending then
          (MemStorage.updateProposalStatus acc otherProposal.id ProposalStatus.rejected).2
        else acc) s =
      { s with proposals := s.proposals.map (fun q =>
          if T.any (fun op => op.id = q.id ∧ op.id ≠ pid ∧
              op.status = ProposalStatus.pending) then
            { q with status := ProposalStatus.rejected }
          else q) } := by
  induction T generalizing s with
  | nil => simp
  | cons op T ih =>
      rw [List.foldl_cons]
      by_cases hop : op.id ≠ pid ∧ op.status = ProposalStatus.pending
      · simp only [if_pos hop]
        have hframe := updateProposalStatus_store s op.id ProposalStatus.rejected
        have hprops := updateProposalStatus_proposals s op.id ProposalStatus.rejected hnd
        have hnd' : (((MemStorage.updateProposalStatus s op.id
            ProposalStatus.rejected).2.proposals).map Proposal.id).Nodup := by
          rw [hprops]
          simpa [List.map_map, Function.comp_def, apply_ite Proposal.id] using hnd
        rw [ih _ hnd', hframe, hprops]
        simp only [List.map_map]
        congr 1
        refine List.map_congr_left ?_
        intro q _
        by_cases hqi : q.id = op.id
        · simp only [Function.comp_def, if_pos hqi]
          have hcons : (List.any (op :: T) (fun o => decide (o.id = q.id ∧ o.id ≠ pid ∧
              o.status = ProposalStatus.pending))) = true := by
            simp only [List.any_cons, Bool.or_eq_true, decide_eq_true_eq]
            exact Or.inl ⟨hqi.symm, hop⟩
          rw [hcons]
          simp
        · simp only [Function.comp_def, if_neg hqi]
          have hcons : (List.any (op :: T) (fun o => decide (o.id = q.id ∧ o.id ≠ pid ∧
              o.status = ProposalStatus.pending))) =
              (List.any T (fun o => decide (o.id = q.id ∧ o.id ≠ pid ∧
                o.status = ProposalStatus.pending))) := by
            simp only [List.any_cons]
            have : (decide (op.id = q.id ∧ op.id ≠ pid ∧
                op.status = ProposalStatus.pending)) = false := by
              simp only [decide_eq_false_iff_not]
              intro hc
              exact hqi (hc.1.symm)
            rw [this, Bool.false_or]
          rw [hcons]
      · simp only [if_neg hop]
        rw [ih _ hnd]
        congr 1
        refine List.map_congr_left ?_
        intro q _
        have hcons : (List.any (op :: T) (fun o => decide (o.id = q.id ∧ o.id ≠ pid ∧
            o.status = ProposalStatus.pending))) =
            (List.any T (fun o => decide (o.id = q.id ∧ o.id ≠ pid ∧
              o.status = ProposalStatus.pending))) := by
          simp only [List.any_cons]
          have : (decide (op.id = q.id ∧ op.id ≠ pid ∧
              op.status = ProposalStatus.pending)) = false := by
            simp only [decide_eq_false_iff_not]
            intro hc
            exact hop ⟨hc.2.1, hc.2.2⟩
          rw [this, Bool.false_or]
        rw [hcons]

/-- C2: when the proposal-status PATCH with `accepted` succeeds (the proposal
and its project exist and the caller is the project's buyer), the proposal
becomes `accepted`, the project `in_progress`, every other proposal of the
project that was `pending` becomes `rejected`, and everything else — other
proposals, other projects, payments, users — is unchanged; with no other
proposals the cascade map is vacuous. -/
theorem acceptProposal_cascade_spec
    (s : Store) (pid uid : Nat) (prop : Proposal) (proj : Project) (user : User)
    (hprop : MemStorage.getProposal s pid = some prop)
    (hproj : MemStorage.getProject s prop.projectId = some proj)
    (huser : MemStorage.getUser s uid = some user)
    (hown : user.id = proj.buyerId)
    (hndp : (s.proposals.map Proposal.id).Nodup)
    (hndj : (s.projects.map Project.id).Nodup) :
    (patchProposalStatus s pid ProposalStatus.accepted uid).resp =
      Resp.okProposal { prop with status := ProposalStatus.accepted } ∧
    (patchProposalStatus s pid ProposalStatus.accepted uid).store.proposals =
      s.proposals.map (fun q =>
        if q.id = pid then { q with status := ProposalStatus.accepted }
        else if q.projectId = prop.projectId ∧ q.status = ProposalStatus.pending then
          { q with status := ProposalStatus.rejected }
        else q) ∧
    (patchProposalStatus s pid ProposalStatus.accepted uid).store.projects =
      s.projects.map (fun r =>
        if r.id = prop.projectId then { r with status := ProjectStatus.in_progress }
        else r) ∧
    (patchProposalStatus s pid ProposalStatus.accepted uid).store.payments = s.payments ∧
    (patchProposalStatus s pid ProposalStatus.accepted uid).store.users = s.users := by
  have hpid : proj.id = prop.projectId := by
    have := List.find?_some hproj
    simpa using this
  have hfst : (MemStorage.updateProposalStatus s pid ProposalStatus.accepted).1 =
      some { prop with status := ProposalStatus.accepted } := by
    unfold MemStorage.updateProposalStatus
    rw [show MemStorage.getProposal s pid =
      s.proposals.find? (fun p => p.id = pid) from rfl] at hprop
    rw [hprop]
  have h1store := updateProposalStatus_store s pid ProposalStatus.accepted
  have h1props := updateProposalStatus_proposals s pid ProposalStatus.accepted hndp
  have hs1projects :
      (MemStorage.updateProposalStatus s pid ProposalStatus.accepted).2.projects =
        s.projects := by rw [h1store]
  have h2store := updateProjectStatus_store
    (MemStorage.updateProposalStatus s pid ProposalStatus.accepted).2 proj.id
    ProjectStatus.in_progress
  have h2projects := updateProjectStatus_projects
    (MemStorage.updateProposalStatus s pid ProposalStatus.accepted).2 proj.id
    ProjectStatus.in_progress (by rw [hs1projects]; exact hndj)
  have hs2proposals :
      (MemStorage.updateProjectStatus
          (MemStorage.updateProposalStatus s pid ProposalStatus.accepted).2 proj.id
          ProjectStatus.in_progress).2.proposals =
        (MemStorage.updateProposalStatus s pid ProposalStatus.accepted).2.proposals := by
    rw [h2store]
  have hs2payments :
      (MemStorage.updateProjectStatus
          (MemStorage.updateProposalStatus s pid ProposalStatus.accepted).2 proj.id
          ProjectStatus.in_progress).2.payments = s.payments := by
    rw [h2store, h1store]
  have hs2users :
      (MemStorage.updateProjectStatus
          (MemStorage.updateProposalStatus s pid ProposalStatus.accepted).2 proj.id
          ProjectStatus.in_progress).2.users = s.users := by
    rw [h2store, h1store]
  have hnd2 :
      (((MemStorage.updateProjectStatus
          (MemStorage.updateProposalStatus s pid ProposalStatus.accepted).2 proj.id
          ProjectStatus.in_progress).2.proposals).map Proposal.id).Nodup := by
    rw [hs2proposals, h1props]
    simpa [List.map_map, Function.comp_def, apply_ite Proposal.id] using hndp
  have hfold := cascade_foldl pid
    (MemStorage.getProposalsByProject
      (MemStorage.updateProjectStatus
        (MemStorage.updateProposalStatus s pid ProposalStatus.accepted).2 proj.id
        ProjectStatus.in_progress).2 proj.id)
    (MemStorage.updateProjectStatus
      (MemStorage.updateProposalStatus s pid ProposalStatus.accepted).2 proj.id
      ProjectStatus.in_progress).2 hnd2
  simp only [ne_eq] at hfold
  have hfoldp := congrArg Store.proposals hfold
  have hfoldj := congrArg Store.projects hfold
  have hfoldpay := congrArg Store.payments hfold
  have hfoldu := congrArg Store.users hfold
  simp only at hfoldp hfoldj hfoldpay hfoldu
  -- reduce the handler to its success branch
  simp only [patchProposalStatus, hprop, hproj, huser, hown, ne_eq, not_true_eq_false,
    if_false, if_true, hfst, Option.getD_some]
  refine ⟨trivial, ?_, ?_, ?_, ?_⟩
  · -- the proposals list
    rw [hfoldp, hs2proposals, h1props, List.map_map]
    refine List.map_congr_left ?_
    intro q hq
    by_cases hqpid : q.id = pid
    · have hnone : (MemStorage.getProposalsByProject
          (MemStorage.updateProjectStatus
            (MemStorage.updateProposalStatus s pid ProposalStatus.accepted).2 proj.id
            ProjectStatus.in_progress).2 proj.id).any
          (fun op => decide (op.id = ({ q with status := ProposalStatus.accepted } : Proposal).id ∧
            ¬op.id = pid ∧ op.status = ProposalStatus.pending)) = false := by
        rw [Bool.eq_false_iff]
        intro hany
        rcases List.any_eq_true.mp hany with ⟨op, _, hcond⟩
        simp only [decide_eq_true_eq] at hcond
        exact hcond.2.1 (by rw [hcond.1]; exact hqpid)
      simp only [Function.comp_def, if_pos hqpid, hnone, Bool.false_eq_true, if_false]
    · -- q is another proposal: rejected iff it was a pending one of the project
      have hTiff : ((MemStorage.getProposalsByProject
            (MemStorage.updateProjectStatus
              (MemStorage.updateProposalStatus s pid ProposalStatus.accepted).2 proj.id
              ProjectStatus.in_progress).2 proj.id).any
            (fun op => op.id = q.id ∧ ¬op.id = pid ∧
              op.status = ProposalStatus.pending) = true) ↔
          (q.projectId = prop.projectId ∧ q.status = ProposalStatus.pending) := by
        rw [any_getProposalsByProject]
        constructor
        · rintro ⟨p, hpmem, hpproj, hpcond⟩
          simp only [decide_eq_true_eq] at hpcond
          rw [hs2proposals, h1props] at hpmem
          rcases List.mem_map.mp hpmem with ⟨q', hq', hfq'⟩
          have hq'id : q'.id = p.id := by
            rw [← hfq']
            by_cases h : q'.id = pid <;> simp [h]
          have : q' = q := List.inj_on_of_nodup_map hndp hq' hq
            (by rw [hq'id, hpcond.1])
          subst this
          have : p = q' := by
            rw [← hfq', if_neg hqpid]
          subst this
          exact ⟨by rw [← hpid]; exact hpproj, hpcond.2.2⟩
        · rintro ⟨hqproj, hqpend⟩
          refine ⟨q, ?_, by rw [hqproj, hpid], ?_⟩
          · rw [hs2proposals, h1props]
            exact List.mem_map.mpr ⟨q, hq, by rw [if_neg hqpid]⟩
          · simp [hqpid, hqpend]
      simp only [Function.comp_def, if_neg hqpid]
      by_cases hcond : q.projectId = prop.projectId ∧ q.status = ProposalStatus.pending
      · rw [if_pos (hTiff.mpr hcond), if_pos hcond]
      · rw [if_neg (fun h => hcond (hTiff.mp h)), if_neg hcond]
  · -- the projects list
    rw [hfoldj, h2projects, hs1projects, hpid]
  · rw [hfoldpay]
    exact hs2payments
  · rw [hfoldu]
    exact hs2users

/-- Witness for C2: accepting Bob's pending proposal on the two-proposal
store rejects Cid's and moves the project to `in_progress`. -/
theorem acceptProposal_cascade_spec_witness :
    MemStorage.getProposal storeAfterCid 1 = some propBobPending ∧
    MemStorage.getProject storeAfterCid propBobPending.projectId = some projectOne ∧
    MemStorage.getUser storeAfterCid 1 = some buyerAda ∧
    buyerAda.id = projectOne.buyerId ∧
    ((patchProposalStatus storeAfterCid 1 ProposalStatus.accepted 1).resp =
      Resp.okProposal { propBobPending with status := ProposalStatus.accepted } ∧
    (patchProposalStatus storeAfterCid 1 ProposalStatus.accepted 1).store.proposals =
      storeAfterCid.proposals.map (fun q =>
        if q.id = 1 then { q with status := ProposalStatus.accepted }
        else if q.projectId = propBobPending.projectId ∧
            q.status = ProposalStatus.pending then
          { q with status := ProposalStatus.rejected }
        else q) ∧
    (patchProposalStatus storeAfterCid 1 ProposalStatus.accepted 1).store.projects =
      storeAfterCid.projects.map (fun r =>
        if r.id = propBobPending.projectId then
          { r with status := ProjectStatus.in_progress }
        else r) ∧
    (patchProposalStatus storeAfterCid 1 ProposalStatus.accepted 1).store.payments =
      storeAfterCid.payments ∧
    (patchProposalStatus storeAfterCid 1 ProposalStatus.accepted 1).store.users =
      storeAfterCid.users) :=
  ⟨by decide, by decide, by decide, by decide,
   acceptProposal_cascade_spec storeAfterCid 1 1 propBobPending projectOne buyerAda
     (by decide) (by decide) (by decide) (by decide) (by decide) (by decide)⟩

/-- C1: the claim fails on the code.  From a store holding three users and one
open project — and no proposals or payments — the request sequence
(Bob submits, Cid submits, buyer accepts proposal 1, buyer accepts
proposal 2) runs entirely through the four core endpoints, yet ends with
two `accepted` proposals on project 1: the status-update handler never
checks the proposal's current status, so accepting the already-rejected
proposal 2 succeeds and breaks the at-most-one-accepted invariant. -/
theorem accepted_invariant_breaks_after_double_accept :
    baseStore.proposals = [] ∧ baseStore.payments = [] ∧
    Relation.ReflTransGen Step baseStore storeAfterSecondAccept ∧
    acceptedCount storeAfterSecondAccept 1 = 2 := by
  refine ⟨rfl, rfl, ?_, by decide⟩
  exact Relation.ReflTransGen.head (Step.submit baseStore 1 2 bodyBob 1 true)
    (Relation.ReflTransGen.head (Step.submit storeAfterBob 1 3 bodyCid 2 true)
      (Relation.ReflTransGen.head
        (Step.patchStatus storeAfterCid 1 ProposalStatus.accepted 1)
        (Relation.ReflTransGen.head
          (Step.patchStatus storeAfterAccept 2 ProposalStatus.accepted 1)
          Relation.ReflTransGen.refl)))

/-- C3: the InvalidState guard the claim describes does not exist.  In the
store reached by accepting proposal 1, that proposal is already `accepted`,
yet a second `accepted` PATCH by the owning buyer answers 200 with the
proposal — it does not fail — and the handler re-runs the project update and
the cascade loop. -/
theorem second_accept_succeeds :
    MemStorage.getProposal storeAfterAccept 1 = some propBobAccepted ∧
    propBobAccepted.status = ProposalStatus.accepted ∧
    (patchProposalStatus storeAfterAccept 1 ProposalStatus.accepted 1).resp =
      Resp.okProposal propBobAccepted := by decide

/-- C4: the state part of the claim holds at this input (a second confirm
leaves the store exactly as after the first), but the notification part
fails: each of the two calls sends the two payment-processed emails, so the
notifications fire twice, not at most once. -/
theorem confirmPayment_renotifies_on_second_call :
    confirmOnce.store.payments.map Payment.status = [PaymentStatus.completed] ∧
    confirmTwice.store = confirmOnce.store ∧
    confirmOnce.emails.length = 2 ∧
    confirmTwice.emails.length = 2 := by decide

/-- C6: the accepted-status precondition the claim describes is not checked.
Proposal 1 is `pending`, yet the owning buyer's create-payment-intent call
succeeds (200 with the client secret) and creates a payment record. -/
theorem createPaymentIntent_accepts_pending_proposal :
    MemStorage.getProposal pendingPropStore 1 = some propBobPending ∧
    propBobPending.status = ProposalStatus.pending ∧
    (createPaymentIntent pendingPropStore 1 1
      (some { id := "pi_1", clientSecret := "cs_1" }) 4).resp =
      Resp.okClientSecret "cs_1" ∧
    (createPaymentIntent pendingPropStore 1 1
      (some { id := "pi_1", clientSecret := "cs_1" }) 4).store.payments.length = 1 := by
  decide

/-- C5 counterexample: for the accepted $33.33 proposal the handler records
commission `33.33 * 0.15 = 4.9995`, which is not `round(33.33 * 0.15, 2) = 5.00`
— the source computes `amount * 0.15` and stores it without any rounding. -/
theorem commission_rounding_counterexample :
    (createPaymentIntent oddPriceStore 1 1
        (some { id := "pi_2", clientSecret := "cs_2" }) 5).store.payments = [payOdd] ∧
    payOdd.amount = 3333 / 100 ∧
    payOdd.commission = 9999 / 2000 ∧
    roundTo2 (payOdd.amount * (15 / 100)) = 5 ∧
    payOdd.commission ≠ roundTo2 (payOdd.amount * (15 / 100)) := by
  have hamount : payOdd.amount = 3333 / 100 := rfl
  have hcomm : payOdd.commission = 9999 / 2000 := by norm_num [payOdd]
  have h5 : roundTo2 ((3333 / 100 : Rat) * (15 / 100)) = 5 := by
    unfold roundTo2 jsRound
    have h₁ : ((3333 / 100 : Rat) * (15 / 100)) * 100 + 1 / 2 = 10009 / 20 := by
      norm_num
    rw [h₁]
    have h₂ : Rat.floor ((10009 : Rat) / 20) = 500 := by
      have h : Rat.floor ((10009 : Rat) / 20) = ⌊(10009 : Rat) / 20⌋ := rfl
      rw [h, Int.floor_eq_iff]
      norm_num
    rw [h₂]
    norm_num
  refine ⟨rfl, hamount, hcomm, by rw [hamount]; exact h5, ?_⟩
  rw [hamount, hcomm, h5]
  norm_num

/-- Full case analysis of the `POST /api/projects/:id/proposals` handler when
the project and session user exist: the not-open rejection, the duplicate
rejection, and the creation path. -/
theorem submitProposal_cases
    (s : Store) (pid uid : Nat) (body : ProposalBody) (now : Nat) (emailOk : Bool)
    (proj : Project) (user : User)
    (hproj : MemStorage.getProject s pid = some proj)
    (huser : MemStorage.getUser s uid = some user) :
    (proj.status ≠ ProjectStatus.«open» →
      (submitProposal s pid uid body now emailOk).resp =
        Resp.badRequest "This project is not accepting proposals" ∧
      (submitProposal s pid uid body now emailOk).store = s) ∧
    (proj.status = ProjectStatus.«open» →
      (∃ p ∈ s.proposals, p.projectId = pid ∧ p.sellerId = user.id) →
      (submitProposal s pid uid body now emailOk).resp =
        Resp.badRequest "You already submitted a proposal for this project" ∧
      (submitProposal s pid uid body now emailOk).store = s) ∧
    (proj.status = ProjectStatus.«open» →
      ¬(∃ p ∈ s.proposals, p.projectId = pid ∧ p.sellerId = user.id) →
      (submitProposal s pid uid body now emailOk).resp =
        Resp.createdProposal
          { id := s.proposalIdCounter, serviceDetails := body.serviceDetails
            price := body.price, deliveryTime := body.deliveryTime
            status := ProposalStatus.pending, projectId := pid
            sellerId := user.id, createdAt := now } ∧
      (submitProposal s pid uid body now emailOk).store.proposals =
        s.proposals ++
          [{ id := s.proposalIdCounter, serviceDetails := body.serviceDetails
             price := body.price, deliveryTime := body.deliveryTime
             status := ProposalStatus.pending, projectId := pid
             sellerId := user.id, createdAt := now }] ∧
      (submitProposal s pid uid body now emailOk).store.projects = s.projects ∧
      (submitProposal s pid uid body now emailOk).store.payments = s.payments) := by
  refine ⟨?_, ?_, ?_⟩
  · intro hnotopen
    simp only [submitProposal, hproj, if_pos hnotopen]
    refine ⟨?_, ?_⟩ <;> trivial
  · intro hopen hdup
    have hany : (MemStorage.getProposalsByProject s pid).any
        (fun p => p.sellerId = user.id) = true := by
      rcases hdup with ⟨p, hp, hpp, hps⟩
      exact any_getProposalsByProject.mpr ⟨p, hp, hpp, by simp [hps]⟩
    simp only [submitProposal, hproj, huser, hopen, ne_eq, not_true_eq_false,
      if_false, hany, if_true]
    refine ⟨?_, ?_⟩ <;> trivial
  · intro hopen hnodup
    have hany : (MemStorage.getProposalsByProject s pid).any
        (fun p => p.sellerId = user.id) = false := by
      rw [Bool.eq_false_iff]
      intro h
      rcases any_getProposalsByProject.mp h with ⟨p, hp, hpp, hps⟩
      exact hnodup ⟨p, hp, hpp, by simpa using hps⟩
    simp only [submitProposal, hproj, huser, hopen, ne_eq, not_true_eq_false,
      if_false, hany, Bool.false_eq_true, MemStorage.createProposal]
    refine ⟨?_, ?_, ?_, ?_⟩ <;> trivial

/-- C7: with the project and session user present, `submitProposal` answers
the not-open InvalidState error (creating nothing) whenever the project is
not `open`, the duplicate-submission error (creating nothing) whenever the
seller already has any proposal on the project, and otherwise creates exactly
one new `pending` proposal tied to that project and seller. -/
theorem submitProposal_spec
    (s : Store) (pid uid : Nat) (body : ProposalBody) (now : Nat) (emailOk : Bool)
    (proj : Project) (user : User)
    (hproj : MemStorage.getProject s pid = some proj)
    (huser : MemStorage.getUser s uid = some user) :
    (proj.status ≠ ProjectStatus.«open» →
      (submitProposal s pid uid body now emailOk).resp =
        Resp.badRequest "This project is not accepting proposals" ∧
      (submitProposal s pid uid body now emailOk).store = s) ∧
    (proj.status = ProjectStatus.«open» →
      (∃ p ∈ s.proposals, p.projectId = pid ∧ p.sellerId = user.id) →
      (submitProposal s pid uid body now emailOk).resp =
        Resp.badRequest "You already submitted a proposal for this project" ∧
      (submitProposal s pid uid body now emailOk).store = s) ∧
    (proj.status = ProjectStatus.«open» →
      ¬(∃ p ∈ s.proposals, p.projectId = pid ∧ p.sellerId = user.id) →
      (submitProposal s pid uid body now emailOk).resp =
        Resp.createdProposal
          { id := s.proposalIdCounter, serviceDetails := body.serviceDetails
            price := body.price, deliveryTime := body.deliveryTime
            status := ProposalStatus.pending, projectId := pid
            sellerId := user.id, createdAt := now } ∧
      (submitProposal s pid uid body now emailOk).store.proposals =
        s.proposals ++
          [{ id := s.proposalIdCounter, serviceDetails := body.serviceDetails
             price := body.price, deliveryTime := body.deliveryTime
             status := ProposalStatus.pending, projectId := pid
             sellerId := user.id, createdAt := now }] ∧
      (submitProposal s pid uid body now emailOk).store.projects = s.projects ∧
      (submitProposal s pid uid body now emailOk).store.payments = s.payments) :=
  submitProposal_cases s pid uid body now emailOk proj user hproj huser

/-- Witness for C7: instantiated on the base store with seller Bob. -/
theorem submitProposal_spec_witness :
    MemStorage.getProject baseStore 1 = some projectOne ∧
    MemStorage.getUser baseStore 2 = some sellerBob ∧
    ((projectOne.status ≠ ProjectStatus.«open» →
      (submitProposal baseStore 1 2 bodyBob 1 true).resp =
        Resp.badRequest "This project is not accepting proposals" ∧
      (submitProposal baseStore 1 2 bodyBob 1 true).store = baseStore) ∧
    (projectOne.status = ProjectStatus.«open» →
      (∃ p ∈ baseStore.proposals, p.projectId = 1 ∧ p.sellerId = sellerBob.id) →
      (submitProposal baseStore 1 2 bodyBob 1 true).resp =
        Resp.badRequest "You already submitted a proposal for this project" ∧
      (submitProposal baseStore 1 2 bodyBob 1 true).store = baseStore) ∧
    (projectOne.status = ProjectStatus.«open» →
      ¬(∃ p ∈ baseStore.proposals, p.projectId = 1 ∧ p.sellerId = sellerBob.id) →
      (submitProposal baseStore 1 2 bodyBob 1 true).resp =
        Resp.createdProposal
          { id := baseStore.proposalIdCounter, serviceDetails := bodyBob.serviceDetails
            price := bodyBob.price, deliveryTime := bodyBob.deliveryTime
            status := ProposalStatus.pending, projectId := 1
            sellerId := sellerBob.id, createdAt := 1 } ∧
      (submitProposal baseStore 1 2 bodyBob 1 true).store.proposals =
        baseStore.proposals ++
          [{ id := baseStore.proposalIdCounter, serviceDetails := bodyBob.serviceDetails
             price := bodyBob.price, deliveryTime := bodyBob.deliveryTime
             status := ProposalStatus.pending, projectId := 1
             sellerId := sellerBob.id, createdAt := 1 }] ∧
      (submitProposal baseStore 1 2 bodyBob 1 true).store.projects =
        baseStore.projects ∧
      (submitProposal baseStore 1 2 bodyBob 1 true).store.payments =
        baseStore.payments)) :=
  ⟨by decide, by decide,
   submitProposal_spec baseStore 1 2 bodyBob 1 true projectOne sellerBob
     (by decide) (by decide)⟩

/-- C10 counterexample: Bob has a rejected proposal on project 1, but the
project is `in_progress`, so his resubmission fails with the not-open
InvalidState message, not with the duplicate-submission error the claim
promises for every such call. -/
theorem duplicate_check_counterexample :
    propBobRejected ∈ closedProjectStore.proposals ∧
    propBobRejected.projectId = 1 ∧ propBobRejected.sellerId = 2 ∧
    propBobRejected.status = ProposalStatus.rejected ∧
    (submitProposal closedProjectStore 1 2 bodyBob 9 true).resp ≠
      Resp.badRequest "You already submitted a proposal for this project" ∧
    (submitProposal closedProjectStore 1 2 bodyBob 9 true).resp =
      Resp.badRequest "This project is not accepting proposals" := by decide

/-- C10 amended: the duplicate check ignores the proposal's status — any
prior proposal by the seller on the project (rejected or cancelled included)
makes the duplicate-submission error fire whenever the project is open; when
the project is not open the call fails earlier with the not-open error.
Either way nothing is created, so the seller can never resubmit. -/
theorem duplicate_check_status_blind
    (s : Store) (pid uid : Nat) (body : ProposalBody) (now : Nat) (emailOk : Bool)
    (proj : Project) (user : User) (p : Proposal)
    (hproj : MemStorage.getProject s pid = some proj)
    (huser : MemStorage.getUser s uid = some user)
    (hp : p ∈ s.proposals) (hpp : p.projectId = pid) (hps : p.sellerId = user.id) :
    (submitProposal s pid uid body now emailOk).store = s ∧
    (proj.status = ProjectStatus.«open» →
      (submitProposal s pid uid body now emailOk).resp =
        Resp.badRequest "You already submitted a proposal for this project") ∧
    (proj.status ≠ ProjectStatus.«open» →
      (submitProposal s pid uid body now emailOk).resp =
        Resp.badRequest "This project is not accepting proposals") := by
  have h := submitProposal_cases s pid uid body now emailOk proj user hproj huser
  by_cases hopen : proj.status = ProjectStatus.«open»
  · have h2 := h.2.1 hopen ⟨p, hp, hpp, hps⟩
    exact ⟨h2.2, fun _ => h2.1, fun hno => absurd hopen hno⟩
  · have h1 := h.1 hopen
    exact ⟨h1.2, fun ho => absurd ho hopen, fun _ => h1.1⟩

/-- Witness for C10's amended theorem: Bob's rejected proposal on the
in-progress project. -/
theorem duplicate_check_status_blind_witness :
    MemStorage.getProject closedProjectStore 1 =
      some { projectOne with status := ProjectStatus.in_progress } ∧
    MemStorage.getUser closedProjectStore 2 = some sellerBob ∧
    propBobRejected ∈ closedProjectStore.proposals ∧
    propBobRejected.projectId = 1 ∧ propBobRejected.sellerId = sellerBob.id ∧
    ((submitProposal closedProjectStore 1 2 bodyBob 9 true).store =
      closedProjectStore ∧
    (({ projectOne with status := ProjectStatus.in_progress } : Project).status =
        ProjectStatus.«open» →
      (submitProposal closedProjectStore 1 2 bodyBob 9 true).resp =
        Resp.badRequest "You already submitted a proposal for this project") ∧
    (({ projectOne with status := ProjectStatus.in_progress } : Project).status ≠
        ProjectStatus.«open» →
      (submitProposal closedProjectStore 1 2 bodyBob 9 true).resp =
        Resp.badRequest "This project is not accepting proposals")) :=
  ⟨by decide, by decide, by decide, by decide, by decide,
   duplicate_check_status_blind closedProjectStore 1 2 bodyBob 9 true
     { projectOne with status := ProjectStatus.in_progress } sellerBob propBobRejected
     (by decide) (by decide) (by decide) (by decide) (by decide)⟩

/-- C5 amended: every payment record `createPaymentIntent` creates stores
`commission = amount * 0.15` computed exactly and left unrounded (the
product, not `round(amount * 0.15, 2)`); the two agree only when the product
already falls on a whole cent, as with the $800 proposal giving $120.00. -/
theorem createPaymentIntent_commission_exact
    (s : Store) (uid pid : Nat) (intent : StripeIntent) (now : Nat)
    (prop : Proposal) (proj : Project) (user : User)
    (hpid : pid ≠ 0)
    (hprop : MemStorage.getProposal s pid = some prop)
    (hproj : MemStorage.getProject s prop.projectId = some proj)
    (huser : MemStorage.getUser s uid = some user)
    (hown : user.id = proj.buyerId) :
    (createPaymentIntent s uid pid (some intent) now).resp =
      Resp.okClientSecret intent.clientSecret ∧
    (createPaymentIntent s uid pid (some intent) now).store.payments =
      s.payments ++
        [{ id := s.paymentIdCounter, amount := prop.price
           commission := prop.price * (15 / 100), status := PaymentStatus.pending
           projectId := proj.id, buyerId := user.id, sellerId := prop.sellerId
           stripePaymentIntentId := if intent.id = "" then none else some intent.id
           createdAt := now }] ∧
    (createPaymentIntent s uid pid (some intent) now).store.proposals =
      s.proposals ∧
    (createPaymentIntent s uid pid (some intent) now).store.projects =
      s.projects := by
  simp only [createPaymentIntent, if_neg hpid, hprop, hproj, huser, hown, ne_eq,
    not_true_eq_false, if_false, MemStorage.createPayment]
  refine ⟨?_, ?_, ?_, ?_⟩ <;> trivial

/-- Witness for C5's amended theorem: the $800 accepted proposal yields a
payment with commission exactly `800 * 0.15`. -/
theorem createPaymentIntent_commission_exact_witness :
    (1 : Nat) ≠ 0 ∧
    MemStorage.getProposal acceptedPropStore 1 = some propBobAccepted ∧
    MemStorage.getProject acceptedPropStore propBobAccepted.projectId =
      some projectOne ∧
    MemStorage.getUser acceptedPropStore 1 = some buyerAda ∧
    buyerAda.id = projectOne.buyerId ∧
    ((createPaymentIntent acceptedPropStore 1 1
        (some { id := "pi_9", clientSecret := "cs_9" }) 7).resp =
      Resp.okClientSecret ({ id := "pi_9", clientSecret := "cs_9" } : StripeIntent).clientSecret ∧
    (createPaymentIntent acceptedPropStore 1 1
        (some { id := "pi_9", clientSecret := "cs_9" }) 7).store.payments =
      acceptedPropStore.payments ++
        [{ id := acceptedPropStore.paymentIdCounter, amount := propBobAccepted.price
           commission := propBobAccepted.price * (15 / 100)
           status := PaymentStatus.pending
           projectId := projectOne.id, buyerId := buyerAda.id
           sellerId := propBobAccepted.sellerId
           stripePaymentIntentId :=
             if ({ id := "pi_9", clientSecret := "cs_9" } : StripeIntent).id = "" then
               none
             else some ({ id := "pi_9", clientSecret := "cs_9" } : StripeIntent).id
           createdAt := 7 }] ∧
    (createPaymentIntent acceptedPropStore 1 1
        (some { id := "pi_9", clientSecret := "cs_9" }) 7).store.proposals =
      acceptedPropStore.proposals ∧
    (createPaymentIntent acceptedPropStore 1 1
        (some { id := "pi_9", clientSecret := "cs_9" }) 7).store.projects =
      acceptedPropStore.projects) :=
  ⟨by decide, by decide, by decide, by decide, by decide,
   createPaymentIntent_commission_exact acceptedPropStore 1 1
     { id := "pi_9", clientSecret := "cs_9" } 7 propBobAccepted projectOne buyerAda
     (by decide) (by decide) (by decide) (by decide) (by decide)⟩

/-- The proposal-submission handler's store result does not depend on the
mail transport's outcome (the email send cannot throw: it catches its own
errors). -/
theorem submitProposal_store_email_independent
    (s : Store) (pid uid : Nat) (body : ProposalBody) (now : Nat) (o1 o2 : Bool) :
    (submitProposal s pid uid body now o1).store =
      (submitProposal s pid uid body now o2).store := by
  unfold submitProposal
  cases MemStorage.getProject s pid with
  | none => rfl
  | some proj =>
    by_cases hop : proj.status ≠ ProjectStatus.«open»
    · simp only [if_pos hop]
    · simp only [if_neg hop]
      cases MemStorage.getUser s uid with
      | none => rfl
      | some user =>
        by_cases hdup : (MemStorage.getProposalsByProject s pid).any
            (fun p => p.sellerId = user.id) = true
        · simp only [hdup, if_true]
        · simp only [Bool.not_eq_true] at hdup
          simp only [hdup, Bool.false_eq_true, if_false]

/-- The payment-confirmation handler's store result does not depend on the
mail transport's outcome. -/
theorem confirmPayment_store_email_independent
    (s : Store) (uid : Nat) (ref : String) (o1 o2 : Bool) :
    (confirmPayment s uid ref o1).store = (confirmPayment s uid ref o2).store := by
  unfold confirmPayment
  by_cases href : ref = ""
  · simp only [if_pos href]
  · simp only [if_neg href]
    cases (MemStorage.getPaymentsByBuyer s uid).find?
        (fun p => p.stripePaymentIntentId = some ref) with
    | none => rfl
    | some payment => rfl

/-- When submission answers 201 with a proposal, that proposal is in the
store, with status `pending`. -/
theorem submitProposal_created
    (s : Store) (pid uid : Nat) (body : ProposalBody) (now : Nat) (ok : Bool)
    (p : Proposal)
    (h : (submitProposal s pid uid body now ok).resp = Resp.createdProposal p) :
    p ∈ (submitProposal s pid uid body now ok).store.proposals ∧
    p.status = ProposalStatus.pending := by
  cases hg : MemStorage.getProject s pid with
  | none => simp [submitProposal, hg] at h
  | some proj =>
    by_cases hop : proj.status ≠ ProjectStatus.«open»
    · simp [submitProposal, hg, if_pos hop] at h
    · cases hu : MemStorage.getUser s uid with
      | none => simp [submitProposal, hg, if_neg hop, hu] at h
      | some user =>
        by_cases hdup : (MemStorage.getProposalsByProject s pid).any
            (fun q => q.sellerId = user.id) = true
        · simp [submitProposal, hg, if_neg hop, hu, hdup] at h
        · simp only [Bool.not_eq_true] at hdup
          simp only [submitProposal, hg, if_neg hop, hu, hdup, Bool.false_eq_true,
            if_false, MemStorage.createProposal, Resp.createdProposal.injEq] at h ⊢
          rw [← h]
          exact ⟨List.mem_append.mpr (Or.inr (List.mem_singleton.mpr rfl)), rfl⟩

/-- When confirmation answers 200 with a payment, that payment is in the
store, with status `completed`. -/
theorem confirmPayment_completed
    (s : Store) (uid : Nat) (ref : String) (ok : Bool) (pay : Payment)
    (h : (confirmPayment s uid ref ok).resp = Resp.okPayment pay) :
    pay ∈ (confirmPayment s uid ref ok).store.payments ∧
    pay.status = PaymentStatus.completed := by
  by_cases href : ref = ""
  · simp [confirmPayment, if_pos href] at h
  · cases hf : (MemStorage.getPaymentsByBuyer s uid).find?
        (fun p => p.stripePaymentIntentId = some ref) with
    | none => simp [confirmPayment, if_neg href, hf] at h
    | some payment =>
      have hmem : payment ∈ s.payments := by
        have h1 := List.mem_of_find?_eq_some hf
        rw [MemStorage.getPaymentsByBuyer] at h1
        exact (List.mem_filter.mp (mem_sortByDesc.mp h1)).1
      have hsome : (s.payments.find? (fun p => p.id = payment.id)).isSome :=
        List.find?_isSome.mpr ⟨payment, hmem, by simp⟩
      obtain ⟨found, hfound⟩ := Option.isSome_iff_exists.mp hsome
      have hfid : found.id = payment.id := by simpa using List.find?_some hfound
      have hfmem : found ∈ s.payments := List.mem_of_find?_eq_some hfound
      have hupd : MemStorage.updatePaymentStatus s payment.id
          PaymentStatus.completed none =
          (some { found with status := PaymentStatus.completed },
           { s with payments := s.payments.map (fun p =>
              if p.id = payment.id then { found with status := PaymentStatus.completed }
              else p) }) := by
        unfold MemStorage.updatePaymentStatus
        rw [hfound]
        rfl
      simp only [confirmPayment, if_neg href, hf, hupd, Option.getD_some,
        Resp.okPayment.injEq] at h ⊢
      rw [← h]
      exact ⟨List.mem_map.mpr ⟨found, hfmem, by rw [if_pos hfid]⟩, rfl⟩

/-- C8: entity mutation is committed before notification.  A failed email
transport (`emailOk = false`) leaves the store exactly as a successful one:
the created proposal (status `pending`) is still stored after submission, and
the confirmed payment (status `completed`) is still stored after
confirmation. -/
theorem mutation_precedes_notification
    (s : Store) (pid uid uid2 : Nat) (body : ProposalBody) (now : Nat)
    (ref : String) (p : Proposal) (pay : Payment)
    (hsub : (submitProposal s pid uid body now false).resp = Resp.createdProposal p)
    (hcon : (confirmPayment s uid2 ref false).resp = Resp.okPayment pay) :
    (submitProposal s pid uid body now false).store =
      (submitProposal s pid uid body now true).store ∧
    p ∈ (submitProposal s pid uid body now false).store.proposals ∧
    p.status = ProposalStatus.pending ∧
    (confirmPayment s uid2 ref false).store = (confirmPayment s uid2 ref true).store ∧
    pay ∈ (confirmPayment s uid2 ref false).store.payments ∧
    pay.status = PaymentStatus.completed := by
  obtain ⟨h1, h2⟩ := submitProposal_created s pid uid body now false p hsub
  obtain ⟨h3, h4⟩ := confirmPayment_completed s uid2 ref false pay hcon
  exact ⟨submitProposal_store_email_independent s pid uid body now false true, h1, h2,
    confirmPayment_store_email_independent s uid2 ref false true, h3, h4⟩

/-- Witness for C8: Bob's submission and the `pi_1` confirmation on
`payStore`, with the transport failing. -/
theorem mutation_precedes_notification_witness :
    (submitProposal payStore 1 2 bodyBob 9 false).resp =
      Resp.createdProposal submittedOnPayStore ∧
    (confirmPayment payStore 1 "pi_1" false).resp = Resp.okPayment payOneCompleted ∧
    ((submitProposal payStore 1 2 bodyBob 9 false).store =
      (submitProposal payStore 1 2 bodyBob 9 true).store ∧
    submittedOnPayStore ∈ (submitProposal payStore 1 2 bodyBob 9 false).store.proposals ∧
    submittedOnPayStore.status = ProposalStatus.pending ∧
    (confirmPayment payStore 1 "pi_1" false).store =
      (confirmPayment payStore 1 "pi_1" true).store ∧
    payOneCompleted ∈ (confirmPayment payStore 1 "pi_1" false).store.payments ∧
    payOneCompleted.status = PaymentStatus.completed) :=
  ⟨by decide, by decide,
   mutation_precedes_notification payStore 1 2 1 bodyBob 9 "pi_1"
     submittedOnPayStore payOneCompleted (by decide) (by decide)⟩

/-- C9: `MemStorage.updatePaymentStatus` — the only post-creation mutation of
payments in the embedded routes — changes nothing but the matched payment's
`status` (and its `stripePaymentIntentId`, only when a non-falsy new value is
supplied): every stored payment keeps its id, amount, commission, projectId,
buyerId, sellerId and createdAt, payments with other ids are untouched, and
users, projects and proposals are untouched.  Hence commission is immutable
after creation. -/
theorem updatePaymentStatus_frame
    (s : Store) (i : Nat) (st : PaymentStatus) (arg : Option String)
    (hnd : (s.payments.map Payment.id).Nodup)
    (q : Payment) (hq : q ∈ s.payments) :
    (MemStorage.updatePaymentStatus s i st arg).2.users = s.users ∧
    (MemStorage.updatePaymentStatus s i st arg).2.projects = s.projects ∧
    (MemStorage.updatePaymentStatus s i st arg).2.proposals = s.proposals ∧
    ∃ q' ∈ (MemStorage.updatePaymentStatus s i st arg).2.payments,
      q'.id = q.id ∧ q'.amount = q.amount ∧ q'.commission = q.commission ∧
      q'.projectId = q.projectId ∧ q'.buyerId = q.buyerId ∧
      q'.sellerId = q.sellerId ∧ q'.createdAt = q.createdAt ∧
      (q.id = i → q'.status = st ∧ q'.stripePaymentIntentId =
        MemStorage.stripeOrKeep arg q.stripePaymentIntentId) ∧
      (q.id ≠ i → q' = q) := by
  cases hfind : s.payments.find? (fun p => p.id = i) with
  | none =>
      have hne : q.id ≠ i := by
        have := List.find?_eq_none.mp hfind q hq
        simpa using this
      simp only [MemStorage.updatePaymentStatus, hfind]
      refine ⟨by trivial, by trivial, by trivial, q, hq, rfl, rfl, rfl, rfl, rfl, rfl,
        rfl, fun h => absurd h hne, fun _ => rfl⟩
  | some payment =>
      have hpi : payment.id = i := by simpa using List.find?_some hfind
      have hpm : payment ∈ s.payments := List.mem_of_find?_eq_some hfind
      simp only [MemStorage.updatePaymentStatus, hfind]
      refine ⟨by trivial, by trivial, by trivial, ?_⟩
      by_cases hqi : q.id = i
      · have hqp : q = payment := List.inj_on_of_nodup_map hnd hq hpm (hqi.trans hpi.symm)
        subst hqp
        refine ⟨{ q with
            status := st
            stripePaymentIntentId := MemStorage.stripeOrKeep arg q.stripePaymentIntentId },
          List.mem_map.mpr ⟨q, hq, by rw [if_pos hqi]⟩,
          rfl, rfl, rfl, rfl, rfl, rfl, rfl, fun _ => ⟨rfl, rfl⟩,
          fun h => absurd hqi h⟩
      · exact ⟨q, List.mem_map.mpr ⟨q, hq, by rw [if_neg hqi]⟩,
          rfl, rfl, rfl, rfl, rfl, rfl, rfl, fun h => absurd h hqi, fun _ => rfl⟩

/-- Witness for C9: confirming `payOne` on `payStore` keeps all its money
fields. -/
theorem updatePaymentStatus_frame_witness :
    ((payStore.payments.map Payment.id).Nodup) ∧
    payOne ∈ payStore.payments ∧
    ((MemStorage.updatePaymentStatus payStore 1 PaymentStatus.completed none).2.users =
      payStore.users ∧
    (MemStorage.updatePaymentStatus payStore 1 PaymentStatus.completed none).2.projects =
      payStore.projects ∧
    (MemStorage.updatePaymentStatus payStore 1 PaymentStatus.completed none).2.proposals =
      payStore.proposals ∧
    ∃ q' ∈ (MemStorage.updatePaymentStatus payStore 1
        PaymentStatus.completed none).2.payments,
      q'.id = payOne.id ∧ q'.amount = payOne.amount ∧
      q'.commission = payOne.commission ∧
      q'.projectId = payOne.projectId ∧ q'.buyerId = payOne.buyerId ∧
      q'.sellerId = payOne.sellerId ∧ q'.createdAt = payOne.createdAt ∧
      (payOne.id = 1 → q'.status = PaymentStatus.completed ∧
        q'.stripePaymentIntentId =
          MemStorage.stripeOrKeep none payOne.stripePaymentIntentId) ∧
      (payOne.id ≠ 1 → q' = payOne)) :=
  ⟨by decide, by decide,
   updatePaymentStatus_frame payStore 1 PaymentStatus.completed none
     (by decide) payOne (by decide)⟩
